import Mathlib

/-!
# Verification of the boids flocking simulation (`src/boids.jsx`)

A shallow embedding of the `BoidsModifier` class and the `updateBoids`
step loop of `src/boids.jsx`.  JavaScript numbers are modelled as
`Option ℝ`: `some r` is a finite value, `none` is NaN.  Every arithmetic
operation propagates NaN exactly as the IEEE semantics used by the
source does; `x / 0` is mapped to `none`, which agrees with JavaScript
(`0 / 0 = NaN`) on every division the source can actually perform with a
zero divisor, because each such division has a numerator that is forced
to be `0` as well (`speed = 0` implies both velocity components are `0`,
and `magnitude = 0` is excluded by the guard in `normalize`).

The mouse reference starts as `{ x: null, y: null }` (line 171 of the
source); `null` is distinct from NaN, so the mouse position is carried
as its own `Option ℝ` pair, where `none` means `null`.
-/

open scoped Classical

namespace BoidsModifier

/-- A JavaScript number: `some r` is a finite double, `none` is NaN. -/
abbrev JNum := Option ℝ

/-- JavaScript `+` on numbers: NaN absorbs. -/
noncomputable def jadd : JNum → JNum → JNum
  | some a, some b => some (a + b)
  | _, _ => none

/-- JavaScript `-` on numbers: NaN absorbs. -/
noncomputable def jsub : JNum → JNum → JNum
  | some a, some b => some (a - b)
  | _, _ => none

/-- JavaScript `*` on numbers: NaN absorbs. -/
noncomputable def jmul : JNum → JNum → JNum
  | some a, some b => some (a * b)
  | _, _ => none

/-- JavaScript `/` on numbers.  A zero divisor yields `none`: in the
source every division whose divisor can be `0` also has numerator `0`
(JavaScript `0 / 0 = NaN`), so this is exact on all reachable paths. -/
noncomputable def jdiv : JNum → JNum → JNum
  | some a, some b => if b = 0 then none else some (a / b)
  | _, _ => none

/-- JavaScript `x ** 2`. -/
noncomputable def jsq (a : JNum) : JNum := jmul a a

/-- `Math.sqrt`: NaN on NaN or negative input. -/
noncomputable def jsqrt : JNum → JNum
  | some a => if a < 0 then none else some (Real.sqrt a)
  | none => none

/-- `Math.hypot(x, y)` on two arguments: `√(x² + y²)`, NaN-absorbing. -/
noncomputable def jhypot : JNum → JNum → JNum
  | some x, some y => some (Real.sqrt (x * x + y * y))
  | _, _ => none

/-- JavaScript `<` on numbers: false whenever an operand is NaN. -/
def jlt : JNum → JNum → Prop
  | some a, some b => a < b
  | _, _ => False

/-- JavaScript `>` on numbers: false whenever an operand is NaN. -/
def jgt : JNum → JNum → Prop
  | some a, some b => b < a
  | _, _ => False

/-- A `{x, y}` record of JavaScript numbers. -/
structure Vec2 where
  x : JNum
  y : JNum

/-- A boid: `position {x,y}` and `velocity {x,y}` (the `angle` field is
written only by the renderer `drawBoid` and read by nothing in the
simulation, so it is omitted). -/
structure Boid where
  position : Vec2
  velocity : Vec2

/-- The mouse cell `mouseRef.current`: each coordinate is a number or
`null` (`none` here); it starts as `{ x: null, y: null }`. -/
structure Mouse where
  x : Option ℝ
  y : Option ℝ

/-- The options bag accepted by the constructor: every field may be
absent, in which case the destructuring default of lines 5–17 applies. -/
structure Options where
  visualRange : Option ℝ
  reduceFactor : Option ℝ
  centeringFactor : Option ℝ
  matchingFactor : Option ℝ
  maxSpeed : Option ℝ
  smoothSpeed : Option ℝ
  acceleration : Option ℝ
  minDistanceBoid : Option ℝ
  avoidFactorBoid : Option ℝ
  minDistanceMouse : Option ℝ
  avoidFactorMouse : Option ℝ

/-- The configuration stored on the instance by the constructor. -/
structure Config where
  visualRange : ℝ
  reduceFactor : ℝ
  centeringFactor : ℝ
  matchingFactor : ℝ
  maxSpeed : ℝ
  smoothSpeed : ℝ
  acceleration : ℝ
  minDistanceBoid : ℝ
  avoidFactorBoid : ℝ
  minDistanceMouse : ℝ
  avoidFactorMouse : ℝ

/-- The constructor, lines 4–32: it destructures the options with the
source's defaults and assigns the fields.  It performs no validation
whatsoever and cannot fail. -/
def mkConfig (o : Options) : Config :=
  Config.mk
    (o.visualRange.getD 55)
    (o.reduceFactor.getD 0.5)
    (o.centeringFactor.getD 0.05)
    (o.matchingFactor.getD 0.05)
    (o.maxSpeed.getD 0.45)
    (o.smoothSpeed.getD 0.3)
    (o.acceleration.getD 0.035)
    (o.minDistanceBoid.getD 20)
    (o.avoidFactorBoid.getD 0.05)
    (o.minDistanceMouse.getD 100)
    (o.avoidFactorMouse.getD 0.025)

/-- An options bag with every field absent. -/
def noOptions : Options :=
  Options.mk none none none none none none none none none none none

/-- The configuration produced by `new BoidsModifier(boids, mouse)` with
no options: all the defaults of lines 5–17. -/
def defaultConfig : Config := mkConfig noOptions

/-- Out-of-range list access fallback; never reached, since every index
used by the step loop is in range. -/
def defaultBoid : Boid :=
  Boid.mk (Vec2.mk (some 0) (some 0)) (Vec2.mk (some 0) (some 0))

/-- `distance(boid1, boid2)`, lines 34–36:
`Math.sqrt((x₁-x₂)**2 + (y₁-y₂)**2)`. -/
noncomputable def distance (b1 b2 : Boid) : JNum :=
  jsqrt (jadd (jsq (jsub b1.position.x b2.position.x))
              (jsq (jsub b1.position.y b2.position.y)))

/-- `normalize(x, y)`, lines 87–94: divide by `Math.hypot(x, y)` when
the magnitude is `> 0`, otherwise return `{x: 0, y: 0}`.  A NaN
magnitude fails the `> 0` test, so NaN input also yields `{0, 0}`. -/
noncomputable def normalize (x y : JNum) : Vec2 :=
  let magnitude := jhypot x y
  if jgt magnitude (some 0) then Vec2.mk (jdiv x magnitude) (jdiv y magnitude)
  else Vec2.mk (some 0) (some 0)

/-- `applyAcceleration(dx, dy)`, lines 76–85.  Note the source computes
`Math.hypot(dx ** 2, dy ** 2)` — the hypotenuse of the *squares* — and
clamps against `maxSpeed` using that quantity. -/
noncomputable def applyAcceleration (cfg : Config) (dx dy : JNum) : Vec2 :=
  let speed := jhypot (jsq dx) (jsq dy)
  if jgt speed (some cfg.maxSpeed) then
    Vec2.mk (jmul (jdiv dx speed) (some cfg.maxSpeed))
            (jmul (jdiv dy speed) (some cfg.maxSpeed))
  else Vec2.mk dx dy

/-- `steer(current, target)`, lines 63–74, with JavaScript's actual
evaluation semantics.  `current` and `target` are `{x, y}` objects, so:

* `const desiredDir = target - current` subtracts two objects; `-`
  applies `ToNumber` to both, `ToPrimitive` gives the string
  `"[object Object]"`, and the result is NaN (`none`);
* `this.normalize(desiredDir)` passes a single argument, so inside
  `normalize` the parameter `y` is `undefined`, which `Math.hypot`
  coerces to NaN — hence the call is `normalize none none`;
* `const steer = desired - current` again subtracts two objects → NaN;
* `steer.x` and `steer.y` are property reads on a Number, yielding
  `undefined`, which `Math.hypot` coerces to NaN.

The parameters are therefore never consulted by any arithmetic that
survives: both `normalize` calls see NaN magnitudes and return `{0,0}`. -/
noncomputable def steer (cfg : Config) (current target : Vec2) : Vec2 :=
  let desiredDir : JNum := none
  let desired : Vec2 := normalize desiredDir none
  let steerNum : JNum := none
  let normalizedSteer : Vec2 := normalize steerNum steerNum
  applyAcceleration cfg
    (jmul normalizedSteer.x (some cfg.acceleration))
    (jmul normalizedSteer.y (some cfg.acceleration))

/-- Accumulator of the neighbour scans in `coherence` and
`matchVelocity`: running x-sum, y-sum and neighbour count. -/
structure ScanAcc where
  cx : JNum
  cy : JNum
  n : ℕ

/-- The neighbour scan of `coherence`, lines 43–49: sum the positions of
every boid (self included) at `distance < visualRange`. -/
noncomputable def coherenceScan (cfg : Config) (bs : List Boid) (boid : Boid) : ScanAcc :=
  bs.foldl
    (fun a other =>
      if jlt (distance boid other) (some cfg.visualRange) then
        ScanAcc.mk (jadd a.cx other.position.x) (jadd a.cy other.position.y) (a.n + 1)
      else a)
    (ScanAcc.mk (some 0) (some 0) 0)

/-- `coherence(boid)`, lines 38–61: average neighbour positions, steer
toward the centroid, add the steering times `centeringFactor` to the
velocity. -/
noncomputable def coherence (cfg : Config) (bs : List Boid) (boid : Boid) : Boid :=
  let s := coherenceScan cfg bs boid
  if 0 < s.n then
    let centerX := jdiv s.cx (some (s.n : ℝ))
    let centerY := jdiv s.cy (some (s.n : ℝ))
    let target := Vec2.mk centerX centerY
    let steering := steer cfg boid.position target
    Boid.mk boid.position
      (Vec2.mk (jadd boid.velocity.x (jmul steering.x (some cfg.centeringFactor)))
               (jadd boid.velocity.y (jmul steering.y (some cfg.centeringFactor))))
  else boid

/-- The scan of `avoidOthers`, lines 100–106: sum the displacements
`boid.position - other.position` over every *other* boid (`other !==
boid`, i.e. a different array slot) at `distance < minDistanceBoid`.
Object identity is modelled by the array index `i` of the boid under
evaluation. -/
noncomputable def avoidScan (cfg : Config) (bs : List Boid) (i : ℕ) (boid : Boid) :
    JNum × JNum :=
  (List.range bs.length).foldl
    (fun a j =>
      let other := bs.getD j defaultBoid
      if j ≠ i ∧ jlt (distance boid other) (some cfg.minDistanceBoid) then
        (jadd a.1 (jsub boid.position.x other.position.x),
         jadd a.2 (jsub boid.position.y other.position.y))
      else a)
    (some 0, some 0)

/-- `avoidOthers(boid)`, lines 96–111: normalize the summed displacement
and add it to the velocity scaled by `avoidFactorBoid * reduceFactor`. -/
noncomputable def avoidOthers (cfg : Config) (bs : List Boid) (i : ℕ) : Boid :=
  let boid := bs.getD i defaultBoid
  let mv := avoidScan cfg bs i boid
  let avoidVector := normalize mv.1 mv.2
  Boid.mk boid.position
    (Vec2.mk
      (jadd boid.velocity.x
        (jmul (jmul avoidVector.x (some cfg.avoidFactorBoid)) (some cfg.reduceFactor)))
      (jadd boid.velocity.y
        (jmul (jmul avoidVector.y (some cfg.avoidFactorBoid)) (some cfg.reduceFactor))))

/-- JavaScript's `ToNumber` on a coordinate of the mouse cell: `null`
coerces to `0`.  In `avoidMouse` the mouse coordinates are consumed only
as operands of `-` (inside `distance` and in `moveX`/`moveY`), and `-`
applies exactly this coercion, so it is applied once up front. -/
def nullToNumber : Option ℝ → ℝ
  | some v => v
  | none => 0

/-- `avoidMouse(boid)`, lines 144–159.  There is no check that the mouse
has ever been set: the `null` coordinates of the initial mouse cell
coerce to `0`, so an unset mouse behaves as a repulsor at the origin. -/
noncomputable def avoidMouse (cfg : Config) (mouse : Mouse) (boid : Boid) : Boid :=
  let mouseParsed : Boid :=
    Boid.mk (Vec2.mk (some (nullToNumber mouse.x)) (some (nullToNumber mouse.y)))
      (Vec2.mk (some 0) (some 0))
  let mouseDistance := distance boid mouseParsed
  if jlt mouseDistance (some cfg.minDistanceMouse) then
    let moveX := jsub boid.position.x mouseParsed.position.x
    let moveY := jsub boid.position.y mouseParsed.position.y
    let avoidVector := normalize moveX moveY
    Boid.mk boid.position
      (Vec2.mk (jadd boid.velocity.x (jmul avoidVector.x (some cfg.avoidFactorMouse)))
               (jadd boid.velocity.y (jmul avoidVector.y (some cfg.avoidFactorMouse))))
  else boid

/-- The neighbour scan of `matchVelocity`, lines 118–124: sum the
velocities of every boid (self included) at `distance < visualRange`. -/
noncomputable def matchScan (cfg : Config) (bs : List Boid) (boid : Boid) : ScanAcc :=
  bs.foldl
    (fun a other =>
      if jlt (distance boid other) (some cfg.visualRange) then
        ScanAcc.mk (jadd a.cx other.velocity.x) (jadd a.cy other.velocity.y) (a.n + 1)
      else a)
    (ScanAcc.mk (some 0) (some 0) 0)

/-- `matchVelocity(boid)`, lines 113–142: blend the velocity toward the
neighbour average by `matchingFactor`, then rescale the speed — down to
`maxSpeed` when above it, up to `maxSpeed * 0.75` when below
`maxSpeed * 0.5`.  The rescale divides by `speed` with no zero guard. -/
noncomputable def matchVelocity (cfg : Config) (bs : List Boid) (boid : Boid) : Boid :=
  let s := matchScan cfg bs boid
  let v1 : Vec2 :=
    if 0 < s.n then
      Vec2.mk
        (jadd boid.velocity.x
          (jmul (jsub (jdiv s.cx (some (s.n : ℝ))) boid.velocity.x)
            (some cfg.matchingFactor)))
        (jadd boid.velocity.y
          (jmul (jsub (jdiv s.cy (some (s.n : ℝ))) boid.velocity.y)
            (some cfg.matchingFactor)))
    else boid.velocity
  let speed := jsqrt (jadd (jsq v1.x) (jsq v1.y))
  if jgt speed (some cfg.maxSpeed) then
    Boid.mk boid.position
      (Vec2.mk (jmul (jdiv v1.x speed) (some cfg.maxSpeed))
               (jmul (jdiv v1.y speed) (some cfg.maxSpeed)))
  else if jlt speed (some (cfg.maxSpeed * 0.5)) then
    Boid.mk boid.position
      (Vec2.mk (jmul (jmul (jdiv v1.x speed) (some cfg.maxSpeed)) (some 0.75))
               (jmul (jmul (jdiv v1.y speed) (some cfg.maxSpeed)) (some 0.75)))
  else Boid.mk boid.position v1

/-- `applyBehaviors(boid)`, lines 161–166: the four rules in source
order, each one reading the live array (which already holds the writes
of the preceding rules, modelled by `List.set` at the boid's index). -/
noncomputable def applyBehaviors (cfg : Config) (mouse : Mouse) (bs : List Boid)
    (i : ℕ) : List Boid :=
  let bs1 := bs.set i (coherence cfg bs (bs.getD i defaultBoid))
  let bs2 := bs1.set i (avoidOthers cfg bs1 i)
  let bs3 := bs2.set i (avoidMouse cfg mouse (bs2.getD i defaultBoid))
  bs3.set i (matchVelocity cfg bs3 (bs3.getD i defaultBoid))

/-- Lines 220–221 of `updateBoids`: `position += velocity`. -/
noncomputable def integrate (boid : Boid) : Boid :=
  Boid.mk
    (Vec2.mk (jadd boid.position.x boid.velocity.x)
             (jadd boid.position.y boid.velocity.y))
    boid.velocity

/-- One coordinate of the toroidal wrap, lines 224–227: two sequential
`if` statements — above `bound + size` reset to `-size`, then below
`-size` reset to `bound + size`. -/
noncomputable def wrapCoord (bound size : ℝ) (x : JNum) : JNum :=
  let x1 := if jgt x (some (bound + size)) then some (-size) else x
  if jlt x1 (some (-size)) then some (bound + size) else x1

/-- Lines 224–227 of `updateBoids`: the toroidal wrap, four sequential
`if` statements with margin `size`, applied to `x` against the canvas
width and to `y` against the canvas height. -/
noncomputable def wrapBoid (w h size : ℝ) (boid : Boid) : Boid :=
  Boid.mk (Vec2.mk (wrapCoord w size boid.position.x) (wrapCoord h size boid.position.y))
    boid.velocity

/-- The body of the `for` loop of `updateBoids`, lines 218–228, for the
boid at index `i`: integrate, apply the four behaviours, wrap. -/
noncomputable def updateOne (cfg : Config) (mouse : Mouse) (w h size : ℝ)
    (bs : List Boid) (i : ℕ) : List Boid :=
  let bs1 := bs.set i (integrate (bs.getD i defaultBoid))
  let bs2 := applyBehaviors cfg mouse bs1 i
  bs2.set i (wrapBoid w h size (bs2.getD i defaultBoid))

/-- `updateBoids()`, lines 217–229: one simulation step, processing the
boids one at a time in array order, mutating as it goes. -/
noncomputable def updateBoids (cfg : Config) (mouse : Mouse) (w h size : ℝ)
    (bs : List Boid) : List Boid :=
  (List.range bs.length).foldl (updateOne cfg mouse w h size) bs

/-- The speed of a velocity vector, measured exactly as line 134 of the
source does: `Math.sqrt(vx ** 2 + vy ** 2)`. -/
noncomputable def speedOf (v : Vec2) : JNum := jsqrt (jadd (jsq v.x) (jsq v.y))

@[simp] theorem jadd_some (a b : ℝ) : jadd (some a) (some b) = some (a + b) := rfl

@[simp] theorem jadd_none_left (b : JNum) : jadd none b = none := rfl

@[simp] theorem jadd_none_right (a : JNum) : jadd a none = none := by
  cases a <;> rfl

@[simp] theorem jsub_some (a b : ℝ) : jsub (some a) (some b) = some (a - b) := rfl

@[simp] theorem jmul_some (a b : ℝ) : jmul (some a) (some b) = some (a * b) := rfl

@[simp] theorem jmul_none_left (b : JNum) : jmul none b = none := rfl

@[simp] theorem jmul_none_right (a : JNum) : jmul a none = none := by
  cases a <;> rfl

@[simp] theorem jsq_some (a : ℝ) : jsq (some a) = some (a * a) := rfl

@[simp] theorem jsq_none : jsq none = none := rfl

@[simp] theorem jdiv_some (a b : ℝ) :
    jdiv (some a) (some b) = if b = 0 then none else some (a / b) := rfl

@[simp] theorem jdiv_none_left (b : JNum) : jdiv none b = none := rfl

@[simp] theorem jsqrt_some (a : ℝ) :
    jsqrt (some a) = if a < 0 then none else some (Real.sqrt a) := rfl

@[simp] theorem jsqrt_none : jsqrt none = none := rfl

@[simp] theorem jhypot_some (x y : ℝ) :
    jhypot (some x) (some y) = some (Real.sqrt (x * x + y * y)) := rfl

@[simp] theorem jhypot_none_left (y : JNum) : jhypot none y = none := rfl

@[simp] theorem jhypot_none_right (x : JNum) : jhypot x none = none := by
  cases x <;> rfl

@[simp] theorem jlt_some (a b : ℝ) : jlt (some a) (some b) ↔ a < b := Iff.rfl

@[simp] theorem jlt_none_left (b : JNum) : ¬ jlt none b := fun h => h

@[simp] theorem jlt_none_right (a : JNum) : ¬ jlt a none := by
  cases a <;> exact fun h => h

@[simp] theorem jgt_some (a b : ℝ) : jgt (some a) (some b) ↔ b < a := Iff.rfl

@[simp] theorem jgt_none_left (b : JNum) : ¬ jgt none b := fun h => h

@[simp] theorem jgt_none_right (a : JNum) : ¬ jgt a none := by
  cases a <;> exact fun h => h

/-- Evaluate a square root from a nonnegative witness of its value. -/
theorem sqrt_eval {a b : ℝ} (hb : 0 ≤ b) (h : b * b = a) : Real.sqrt a = b := by
  subst h; exact Real.sqrt_mul_self hb

/-- The nonnegative sum of two squares is not negative. -/
theorem sq_sum_not_neg (a b : ℝ) : ¬ (a * a + b * b < 0) := by
  push_neg
  exact add_nonneg (mul_self_nonneg a) (mul_self_nonneg b)

/-- `jsqrt` of a sum of squares always succeeds. -/
theorem jsqrt_sq_sum (a b : ℝ) :
    jsqrt (some (a * a + b * b)) = some (Real.sqrt (a * a + b * b)) := by
  simp [sq_sum_not_neg a b]

@[simp] theorem speedOf_some (a b : ℝ) :
    speedOf (Vec2.mk (some a) (some b)) = some (Real.sqrt (a * a + b * b)) := by
  simp only [speedOf, jsq_some, jadd_some]
  exact jsqrt_sq_sum a b

@[simp] theorem speedOf_nan_right (a : JNum) : speedOf (Vec2.mk a none) = none := by
  simp [speedOf]

/-- `normalize` on NaN input returns `{0, 0}`. -/
theorem normalize_nan_left (y : JNum) : normalize none y = Vec2.mk (some 0) (some 0) := by
  simp [normalize]

/-- `normalize` on finite input whose magnitude is positive. -/
theorem normalize_pos {x y m : ℝ} (hm : Real.sqrt (x * x + y * y) = m) (h0 : 0 < m) :
    normalize (some x) (some y) = Vec2.mk (some (x / m)) (some (y / m)) := by
  simp only [normalize, jhypot_some, hm]
  rw [if_pos (by simpa using h0), jdiv_some, jdiv_some, if_neg h0.ne', if_neg h0.ne']

/-- `normalize` on finite input whose magnitude is zero (or on the zero
vector) returns `{0, 0}`. -/
theorem normalize_zero {x y : ℝ} (hm : Real.sqrt (x * x + y * y) = 0) :
    normalize (some x) (some y) = Vec2.mk (some 0) (some 0) := by
  simp only [normalize, jhypot_some, hm]
  rw [if_neg (by simp)]

/-- `steer` always returns the zero vector when `maxSpeed` is not
negative: every numeric intermediate of lines 63–74 is NaN, both
`normalize` calls collapse to `{0,0}`, and `applyAcceleration (0, 0)`
returns `(0, 0)` because its `speed` is `0`. -/
theorem steer_eq_zero (cfg : Config) (hms : 0 ≤ cfg.maxSpeed) (current target : Vec2) :
    steer cfg current target = Vec2.mk (some 0) (some 0) := by
  simp only [steer, normalize_nan_left, jmul_some, applyAcceleration, jsq_some,
    jhypot_some, zero_mul, mul_zero, add_zero, Real.sqrt_zero]
  rw [if_neg (by simpa using hms)]

/-- `coherence` never changes a boid: the steering vector is always
`{0, 0}` (see `steer_eq_zero`), so the velocity increments are zero, and
the position is copied through. -/
theorem coherence_id (cfg : Config) (hms : 0 ≤ cfg.maxSpeed) (bs : List Boid) (b : Boid) :
    coherence cfg bs b = b := by
  unfold coherence
  by_cases hn : 0 < (coherenceScan cfg bs b).n
  · rw [if_pos hn]
    have hx : ∀ v : JNum, jadd v (jmul (some 0) (some cfg.centeringFactor)) = v := by
      intro v; cases v <;> simp
    simp only [steer_eq_zero cfg hms, hx]
  · rw [if_neg hn]

/-- Rescaling a vector of magnitude `sp > 0` by `m / sp` produces a
vector of magnitude `m` (for `m ≥ 0`). -/
theorem mag_rescale {wx wy sp m : ℝ} (hsp : Real.sqrt (wx * wx + wy * wy) = sp)
    (h0 : 0 < sp) (hm : 0 ≤ m) :
    Real.sqrt (wx / sp * m * (wx / sp * m) + wy / sp * m * (wy / sp * m)) = m := by
  have hnn : 0 ≤ wx * wx + wy * wy :=
    add_nonneg (mul_self_nonneg wx) (mul_self_nonneg wy)
  have hX : wx * wx + wy * wy = sp ^ 2 := by
    rw [← hsp]; rw [Real.sq_sqrt hnn]
  have h1 : wx / sp * m * (wx / sp * m) + wy / sp * m * (wy / sp * m) =
      (m / sp) ^ 2 * (wx * wx + wy * wy) := by ring
  rw [h1, hX, show (m / sp) ^ 2 * sp ^ 2 = m ^ 2 by field_simp]
  exact Real.sqrt_sq hm

/-- Full evaluation of `matchVelocity` from the value of its neighbour
scan, the boid's (finite) velocity, and the value `sp` of the post-blend
speed.  `wx`/`wy` are the blended components.  When the speed floor
applies with `sp = 0`, both divisions are `0 / 0` and the velocity
becomes NaN. -/
theorem matchVelocity_eval (cfg : Config) (bs : List Boid) (b : Boid)
    (sx sy vx vy wx wy sp : ℝ) (n : ℕ)
    (hscan : matchScan cfg bs b = ScanAcc.mk (some sx) (some sy) n)
    (hn : 0 < n)
    (hv : b.velocity = Vec2.mk (some vx) (some vy))
    (hms : 0 ≤ cfg.maxSpeed)
    (hwx : vx + (sx / (n : ℝ) - vx) * cfg.matchingFactor = wx)
    (hwy : vy + (sy / (n : ℝ) - vy) * cfg.matchingFactor = wy)
    (hsp : Real.sqrt (wx * wx + wy * wy) = sp) :
    matchVelocity cfg bs b =
      Boid.mk b.position
        (if cfg.maxSpeed < sp then
           Vec2.mk (some (wx / sp * cfg.maxSpeed)) (some (wy / sp * cfg.maxSpeed))
         else if sp < cfg.maxSpeed * 0.5 then
           (if sp = 0 then Vec2.mk none none
            else Vec2.mk (some (wx / sp * cfg.maxSpeed * 0.75))
                         (some (wy / sp * cfg.maxSpeed * 0.75)))
         else Vec2.mk (some wx) (some wy)) := by
  have hn2 : ((n : ℝ)) ≠ 0 := Nat.cast_ne_zero.2 hn.ne'
  unfold matchVelocity
  rw [hscan, hv]
  simp only [if_pos hn, jdiv_some, if_neg hn2, jsub_some, jmul_some, jadd_some,
    jsq_some]
  rw [hwx, hwy, jsqrt_sq_sum, hsp]
  by_cases hc : cfg.maxSpeed < sp
  · rw [if_pos (by simpa using hc), if_pos hc]
    have hspne : sp ≠ 0 := (lt_of_le_of_lt hms hc).ne'
    rw [jdiv_some, jdiv_some, if_neg hspne, if_neg hspne]
    simp
  · rw [if_neg (by simpa using hc), if_neg hc]
    by_cases hf : sp < cfg.maxSpeed * 0.5
    · rw [if_pos (by simpa using hf), if_pos hf]
      by_cases hz : sp = 0
      · rw [if_pos hz, jdiv_some, jdiv_some, if_pos hz, if_pos hz]
        simp
      · rw [if_neg hz, jdiv_some, jdiv_some, if_neg hz, if_neg hz]
        simp
    · rw [if_neg (by simpa using hf), if_neg hf]


/-- A coordinate above `bound + size` is reset to exactly `-size`. -/
theorem wrapCoord_high {bound size x : ℝ} (hx : bound + size < x) :
    wrapCoord bound size (some x) = some (-size) := by
  unfold wrapCoord
  rw [if_pos (show jgt (some x) (some (bound + size)) by simpa using hx)]
  rw [if_neg (show ¬ jlt ((some (-size)) : JNum) (some (-size)) by simp)]

/-- A coordinate below `-size` is reset to exactly `bound + size`
(provided `-size ≤ bound + size`, true for any real canvas). -/
theorem wrapCoord_low {bound size x : ℝ} (hbs : -size ≤ bound + size) (hx : x < -size) :
    wrapCoord bound size (some x) = some (bound + size) := by
  unfold wrapCoord
  rw [if_neg (show ¬ jgt (some x) (some (bound + size)) by
    simp only [jgt_some, not_lt]; linarith)]
  rw [if_pos (show jlt (some x) ((some (-size)) : JNum) by simpa using hx)]

/-- A coordinate inside the band `[-size, bound + size]` is unchanged. -/
theorem wrapCoord_in {bound size x : ℝ} (h1 : -size ≤ x) (h2 : x ≤ bound + size) :
    wrapCoord bound size (some x) = some x := by
  unfold wrapCoord
  rw [if_neg (show ¬ jgt (some x) (some (bound + size)) by simpa using not_lt.2 h2)]
  rw [if_neg (show ¬ jlt (some x) ((some (-size)) : JNum) by simpa using not_lt.2 h1)]

/-- C7: after the step's boundary wrap, a position coordinate above
`bound + margin` equals exactly `-margin`, one below `-margin` equals
exactly `bound + margin`, and one inside `[-margin, bound + margin]` is
unchanged (margin = agent draw `size`); the wrap never touches the
velocity. -/
theorem wrap_bounds (w h s : ℝ) (hw : 0 ≤ w) (hh : 0 ≤ h) (hs : 0 ≤ s)
    (x y : ℝ) (b : Boid) (hb : b.position = Vec2.mk (some x) (some y)) :
    ((w + s < x → (wrapBoid w h s b).position.x = some (-s)) ∧
     (x < -s → (wrapBoid w h s b).position.x = some (w + s)) ∧
     (-s ≤ x → x ≤ w + s → (wrapBoid w h s b).position.x = some x)) ∧
    ((h + s < y → (wrapBoid w h s b).position.y = some (-s)) ∧
     (y < -s → (wrapBoid w h s b).position.y = some (h + s)) ∧
     (-s ≤ y → y ≤ h + s → (wrapBoid w h s b).position.y = some y)) ∧
    (wrapBoid w h s b).velocity = b.velocity := by
  have hwx : (wrapBoid w h s b).position.x = wrapCoord w s (some x) := by
    rw [wrapBoid, hb]
  have hwy : (wrapBoid w h s b).position.y = wrapCoord h s (some y) := by
    rw [wrapBoid, hb]
  refine ⟨⟨?_, ?_, ?_⟩, ⟨?_, ?_, ?_⟩, rfl⟩
  · intro hx; rw [hwx]; exact wrapCoord_high hx
  · intro hx; rw [hwx]; exact wrapCoord_low (by linarith) hx
  · intro h1 h2; rw [hwx]; exact wrapCoord_in h1 h2
  · intro hy; rw [hwy]; exact wrapCoord_high hy
  · intro hy; rw [hwy]; exact wrapCoord_low (by linarith) hy
  · intro h1 h2; rw [hwy]; exact wrapCoord_in h1 h2

/-- Witness for C7: on a 100×100 canvas with draw size 8, a boid at
`(120, -20)` wraps to `(-8, 108)`. -/
theorem wrap_bounds_witness :
    (wrapBoid 100 100 8 (Boid.mk (Vec2.mk (some 120) (some (-20)))
        (Vec2.mk (some 1) (some 2)))).position.x = some (-8) ∧
    (wrapBoid 100 100 8 (Boid.mk (Vec2.mk (some 120) (some (-20)))
        (Vec2.mk (some 1) (some 2)))).position.y = some (100 + 8) := by
  have hb := wrap_bounds 100 100 8 (by norm_num) (by norm_num) (by norm_num)
    120 (-20) (Boid.mk (Vec2.mk (some 120) (some (-20))) (Vec2.mk (some 1) (some 2))) rfl
  exact ⟨hb.1.1 (by norm_num), hb.2.1.2.1 (by norm_num)⟩

/-- An options bag that only overrides `maxSpeed`, with value `0`. -/
def optionsMaxSpeedZero : Options :=
  Options.mk none none none none (some 0) none none none none none none

/-- C3 counterexample: constructing with `maxSpeed = 0` is *not*
rejected — it succeeds and returns a fully constructed configuration
that stores `maxSpeed = 0` together with all the other defaults. -/
theorem mkConfig_accepts_zero_maxSpeed :
    mkConfig optionsMaxSpeedZero =
      Config.mk 55 0.5 0.05 0.05 0 0.3 0.035 20 0.05 100 0.025 := rfl

/-- C3 (amended): the constructor performs no validation at all — for
*every* options bag, even one with a non-positive max speed or negative
factors/distances, construction succeeds and every stored field is
exactly the supplied value (or the source default when absent); no
failure path exists. -/
theorem mkConfig_no_validation (o : Options) :
    (mkConfig o).visualRange = o.visualRange.getD 55 ∧
    (mkConfig o).reduceFactor = o.reduceFactor.getD 0.5 ∧
    (mkConfig o).centeringFactor = o.centeringFactor.getD 0.05 ∧
    (mkConfig o).matchingFactor = o.matchingFactor.getD 0.05 ∧
    (mkConfig o).maxSpeed = o.maxSpeed.getD 0.45 ∧
    (mkConfig o).smoothSpeed = o.smoothSpeed.getD 0.3 ∧
    (mkConfig o).acceleration = o.acceleration.getD 0.035 ∧
    (mkConfig o).minDistanceBoid = o.minDistanceBoid.getD 20 ∧
    (mkConfig o).avoidFactorBoid = o.avoidFactorBoid.getD 0.05 ∧
    (mkConfig o).minDistanceMouse = o.minDistanceMouse.getD 100 ∧
    (mkConfig o).avoidFactorMouse = o.avoidFactorMouse.getD 0.025 :=
  ⟨rfl, rfl, rfl, rfl, rfl, rfl, rfl, rfl, rfl, rfl, rfl⟩

/-- `normalize` of the zero vector is the zero vector. -/
theorem normalize_zero_zero :
    normalize (some 0) (some 0) = Vec2.mk (some 0) (some 0) := by
  refine normalize_zero ?_
  rw [show (0 : ℝ) * 0 + 0 * 0 = 0 by ring, Real.sqrt_zero]

/-- `normalize` with a NaN second component also returns `{0, 0}`. -/
theorem normalize_nan_right (x : JNum) : normalize x none = Vec2.mk (some 0) (some 0) := by
  cases x <;> simp [normalize]

/-- A vector already of unit magnitude is returned unchanged by
`normalize`. -/
theorem normalize_unit {a b m : ℝ} (hm : Real.sqrt (a * a + b * b) = m) (h0 : 0 < m) :
    normalize (some (a / m)) (some (b / m)) = Vec2.mk (some (a / m)) (some (b / m)) := by
  have hnn : 0 ≤ a * a + b * b := add_nonneg (mul_self_nonneg a) (mul_self_nonneg b)
  have hX : a * a + b * b = m ^ 2 := by rw [← hm]; exact (Real.sq_sqrt hnn).symm
  have h1 : a / m * (a / m) + b / m * (b / m) = (a * a + b * b) * (1 / m) ^ 2 := by ring
  have h2 : Real.sqrt (a / m * (a / m) + b / m * (b / m)) = 1 := by
    rw [h1, hX, show m ^ 2 * (1 / m) ^ 2 = 1 by field_simp, Real.sqrt_one]
  rw [normalize_pos h2 one_pos, div_one, div_one]

/-- C9: `normalize` is total and idempotent: for every input vector —
finite or NaN — normalizing twice equals normalizing once (an
already-unit vector comes back unchanged), and the zero vector maps to
`{0, 0}` without any error. -/
theorem normalize_total_idem (x y : JNum) :
    (normalize ((normalize x y).x) ((normalize x y).y) = normalize x y) ∧
    normalize (some 0) (some 0) = Vec2.mk (some 0) (some 0) := by
  refine ⟨?_, normalize_zero_zero⟩
  match x, y with
  | none, y => rw [normalize_nan_left]; exact normalize_zero_zero
  | some a, none => rw [normalize_nan_right]; exact normalize_zero_zero
  | some a, some b =>
    have hnn : 0 ≤ a * a + b * b := add_nonneg (mul_self_nonneg a) (mul_self_nonneg b)
    rcases lt_or_eq_of_le (Real.sqrt_nonneg (a * a + b * b)) with h0 | h0
    · rw [normalize_pos rfl h0]
      exact normalize_unit rfl h0
    · rw [normalize_zero h0.symm]
      exact normalize_zero_zero
/-- `List.getD` after `List.set` at a different index is unchanged. -/
theorem getD_set_ne {α : Type _} (d x : α) :
    ∀ (l : List α) (i j : ℕ), j ≠ i → (l.set i x).getD j d = l.getD j d
  | [], _, _, _ => rfl
  | _ :: _, 0, 0, h => absurd rfl h
  | _ :: _, 0, _+1, _ => rfl
  | _ :: _, _+1, 0, _ => rfl
  | _ :: l, i+1, j+1, h =>
      getD_set_ne d x l i j (fun hji => h (by rw [hji]))

/-- `List.getD` after `List.set` at the same (in-range) index yields the
written element. -/
theorem getD_set_self {α : Type _} (d x : α) :
    ∀ (l : List α) (i : ℕ), i < l.length → (l.set i x).getD i d = x
  | [], _, h => absurd h (by simp)
  | _ :: _, 0, _ => rfl
  | _ :: l, i+1, h => getD_set_self d x l i (Nat.lt_of_succ_lt_succ h)

/-- `coherence` writes only the velocity. -/
theorem coherence_position (cfg : Config) (bs : List Boid) (b : Boid) :
    (coherence cfg bs b).position = b.position := by
  unfold coherence
  by_cases hn : 0 < (coherenceScan cfg bs b).n
  · rw [if_pos hn]
  · rw [if_neg hn]

/-- `avoidOthers` writes only the velocity. -/
theorem avoidOthers_position (cfg : Config) (bs : List Boid) (i : ℕ) :
    (avoidOthers cfg bs i).position = (bs.getD i defaultBoid).position := rfl

/-- `avoidMouse` writes only the velocity. -/
theorem avoidMouse_position (cfg : Config) (mouse : Mouse) (b : Boid) :
    (avoidMouse cfg mouse b).position = b.position := by
  unfold avoidMouse
  by_cases hd : jlt (distance b (Boid.mk
      (Vec2.mk (some (nullToNumber mouse.x)) (some (nullToNumber mouse.y)))
      (Vec2.mk (some 0) (some 0)))) (some cfg.minDistanceMouse)
  · rw [if_pos hd]
  · rw [if_neg hd]

/-- `matchVelocity` writes only the velocity. -/
theorem matchVelocity_position (cfg : Config) (bs : List Boid) (b : Boid) :
    (matchVelocity cfg bs b).position = b.position := by
  simp only [matchVelocity]
  split_ifs <;> rfl

/-- C10: one pass of the behaviour rules over the boid at index `i`
changes nothing but that boid's velocity — every other slot of the array
is untouched, and the evaluated boid's position is exactly what it was
before the rules ran. -/
theorem applyBehaviors_frame (cfg : Config) (mouse : Mouse) (bs : List Boid) (i : ℕ)
    (hi : i < bs.length) :
    (applyBehaviors cfg mouse bs i).length = bs.length ∧
    (∀ j, j ≠ i →
      (applyBehaviors cfg mouse bs i).getD j defaultBoid = bs.getD j defaultBoid) ∧
    ((applyBehaviors cfg mouse bs i).getD i defaultBoid).position =
      (bs.getD i defaultBoid).position := by
  simp only [applyBehaviors]
  refine ⟨by simp, ?_, ?_⟩
  · intro j hj
    rw [getD_set_ne defaultBoid _ _ _ _ hj, getD_set_ne defaultBoid _ _ _ _ hj,
      getD_set_ne defaultBoid _ _ _ _ hj, getD_set_ne defaultBoid _ _ _ _ hj]
  · rw [getD_set_self defaultBoid _ _ _ (by simpa using hi)]
    rw [matchVelocity_position]
    rw [getD_set_self defaultBoid _ _ _ (by simpa using hi)]
    rw [avoidMouse_position]
    rw [getD_set_self defaultBoid _ _ _ (by simpa using hi)]
    rw [avoidOthers_position]
    rw [getD_set_self defaultBoid _ _ _ (by simpa using hi)]
    rw [coherence_position]

/-- Witness for C10 on a concrete two-boid flock: evaluating index 0
leaves slot 1 untouched and preserves slot 0's position. -/
theorem applyBehaviors_frame_witness :
    (applyBehaviors defaultConfig (Mouse.mk none none)
        [defaultBoid, defaultBoid] 0).getD 1 defaultBoid = defaultBoid ∧
    ((applyBehaviors defaultConfig (Mouse.mk none none)
        [defaultBoid, defaultBoid] 0).getD 0 defaultBoid).position = defaultBoid.position := by
  have h := applyBehaviors_frame defaultConfig (Mouse.mk none none)
    [defaultBoid, defaultBoid] 0 (by norm_num)
  exact ⟨h.2.1 1 (by norm_num), h.2.2⟩

@[simp] theorem defaultConfig_visualRange : defaultConfig.visualRange = 55 := rfl

@[simp] theorem defaultConfig_reduceFactor : defaultConfig.reduceFactor = 0.5 := rfl

@[simp] theorem defaultConfig_centeringFactor : defaultConfig.centeringFactor = 0.05 := rfl

@[simp] theorem defaultConfig_matchingFactor : defaultConfig.matchingFactor = 0.05 := rfl

@[simp] theorem defaultConfig_maxSpeed : defaultConfig.maxSpeed = 0.45 := rfl

@[simp] theorem defaultConfig_smoothSpeed : defaultConfig.smoothSpeed = 0.3 := rfl

@[simp] theorem defaultConfig_acceleration : defaultConfig.acceleration = 0.035 := rfl

@[simp] theorem defaultConfig_minDistanceBoid : defaultConfig.minDistanceBoid = 20 := rfl

@[simp] theorem defaultConfig_avoidFactorBoid : defaultConfig.avoidFactorBoid = 0.05 := rfl

@[simp] theorem defaultConfig_minDistanceMouse : defaultConfig.minDistanceMouse = 100 := rfl

@[simp] theorem defaultConfig_avoidFactorMouse : defaultConfig.avoidFactorMouse = 0.025 := rfl

/-- Evaluate `distance` between two finite positions from a nonnegative
witness of the distance value. -/
theorem distance_eval {x1 y1 x2 y2 d : ℝ} (b1 b2 : Boid)
    (h1 : b1.position = Vec2.mk (some x1) (some y1))
    (h2 : b2.position = Vec2.mk (some x2) (some y2))
    (hd : 0 ≤ d)
    (hsq : d * d = (x1 - x2) * (x1 - x2) + (y1 - y2) * (y1 - y2)) :
    distance b1 b2 = some d := by
  unfold distance
  rw [h1, h2]
  simp only [jsub_some, jsq_some, jadd_some]
  rw [jsqrt_sq_sum, sqrt_eval hd hsq]

/-- The distance from a boid with finite position to itself is `0`. -/
theorem distance_self {px py : ℝ} (b : Boid)
    (hb : b.position = Vec2.mk (some px) (some py)) : distance b b = some 0 :=
  distance_eval b b hb hb le_rfl (by ring)

/-- The `matchVelocity` scan over a single resting boid: the boid is its
own (distance-0) neighbour, so the count is 1 and both sums are 0. -/
theorem matchScan_single_resting :
    matchScan defaultConfig [defaultBoid] defaultBoid = ScanAcc.mk (some 0) (some 0) 1 := by
  unfold matchScan
  rw [List.foldl_cons, List.foldl_nil,
    if_pos (show jlt (distance defaultBoid defaultBoid) (some defaultConfig.visualRange) by
      rw [distance_self defaultBoid rfl]
      simp only [defaultConfig_visualRange, jlt_some]
      norm_num)]
  simp [defaultBoid]

/-- A single resting boid (zero velocity) drives `matchVelocity` through
the speed-floor branch with `speed = 0`, so both velocity components
become `0 / 0` = NaN. -/
theorem resting_matchVelocity_nan :
    (matchVelocity defaultConfig [defaultBoid] defaultBoid).velocity = Vec2.mk none none := by
  have h := matchVelocity_eval defaultConfig [defaultBoid] defaultBoid
    0 0 0 0 0 0 0 1 matchScan_single_resting (by norm_num) rfl (by norm_num)
    (by norm_num) (by norm_num) (sqrt_eval le_rfl (by norm_num))
  rw [h, if_neg (by norm_num), if_pos (by norm_num), if_pos rfl]

/-- C4 (code bug): the alignment rule's rescale is *not* guarded against
zero speed.  For a lone boid with zero velocity the post-blend speed is
exactly `0`, the floor branch fires, and `velocity.x = (0 / 0) * ...`
makes both velocity components NaN instead of leaving them unchanged. -/
theorem matchVelocity_divides_by_zero_speed :
    (matchVelocity defaultConfig [defaultBoid] defaultBoid).velocity = Vec2.mk none none ∧
    (matchVelocity defaultConfig [defaultBoid] defaultBoid).velocity ≠ defaultBoid.velocity := by
  refine ⟨resting_matchVelocity_nan, ?_⟩
  rw [resting_matchVelocity_nan]
  simp [defaultBoid]

/-- C5 (amended): with at least one neighbour in `visualRange`, the
alignment rule blends the velocity toward the neighbour average by
`matchingFactor`; then, writing `sp` for the post-blend speed: above
`maxSpeed` the velocity is rescaled to magnitude exactly `maxSpeed`;
below `0.5 * maxSpeed` *and nonzero* it is rescaled to magnitude exactly
`maxSpeed * 0.75`; in between it is left at the blended value.  (The
`sp = 0` case is excluded: there the rescale divides by zero and the
velocity becomes NaN — see the counterexample.) -/
theorem matchVelocity_alignment (cfg : Config) (bs : List Boid) (b : Boid)
    (sx sy vx vy wx wy sp : ℝ) (n : ℕ)
    (hscan : matchScan cfg bs b = ScanAcc.mk (some sx) (some sy) n)
    (hn : 0 < n)
    (hv : b.velocity = Vec2.mk (some vx) (some vy))
    (hms : 0 < cfg.maxSpeed)
    (hwx : vx + (sx / (n : ℝ) - vx) * cfg.matchingFactor = wx)
    (hwy : vy + (sy / (n : ℝ) - vy) * cfg.matchingFactor = wy)
    (hsp : Real.sqrt (wx * wx + wy * wy) = sp) :
    (cfg.maxSpeed < sp →
      (matchVelocity cfg bs b).velocity =
        Vec2.mk (some (wx / sp * cfg.maxSpeed)) (some (wy / sp * cfg.maxSpeed)) ∧
      speedOf (matchVelocity cfg bs b).velocity = some cfg.maxSpeed) ∧
    (sp < cfg.maxSpeed * 0.5 → 0 < sp →
      (matchVelocity cfg bs b).velocity =
        Vec2.mk (some (wx / sp * cfg.maxSpeed * 0.75))
                (some (wy / sp * cfg.maxSpeed * 0.75)) ∧
      speedOf (matchVelocity cfg bs b).velocity = some (cfg.maxSpeed * 0.75)) ∧
    (cfg.maxSpeed * 0.5 ≤ sp → sp ≤ cfg.maxSpeed →
      (matchVelocity cfg bs b).velocity = Vec2.mk (some wx) (some wy)) := by
  have h := matchVelocity_eval cfg bs b sx sy vx vy wx wy sp n
    hscan hn hv hms.le hwx hwy hsp
  refine ⟨?_, ?_, ?_⟩
  · intro hc
    have hpos : 0 < sp := lt_trans hms hc
    rw [h, if_pos hc]
    refine ⟨rfl, ?_⟩
    rw [show (Boid.mk b.position
        (Vec2.mk (some (wx / sp * cfg.maxSpeed)) (some (wy / sp * cfg.maxSpeed)))).velocity =
      Vec2.mk (some (wx / sp * cfg.maxSpeed)) (some (wy / sp * cfg.maxSpeed)) from rfl]
    rw [speedOf_some, mag_rescale hsp hpos hms.le]
  · intro hf hpos
    have hnc : ¬ cfg.maxSpeed < sp := by
      push_neg
      nlinarith
    rw [h, if_neg hnc, if_pos hf, if_neg hpos.ne']
    refine ⟨rfl, ?_⟩
    rw [show (Boid.mk b.position
        (Vec2.mk (some (wx / sp * cfg.maxSpeed * 0.75))
                 (some (wy / sp * cfg.maxSpeed * 0.75)))).velocity =
      Vec2.mk (some (wx / sp * cfg.maxSpeed * 0.75))
              (some (wy / sp * cfg.maxSpeed * 0.75)) from rfl]
    rw [speedOf_some]
    rw [show wx / sp * cfg.maxSpeed * 0.75 * (wx / sp * cfg.maxSpeed * 0.75) +
        wy / sp * cfg.maxSpeed * 0.75 * (wy / sp * cfg.maxSpeed * 0.75) =
        wx / sp * (cfg.maxSpeed * 0.75) * (wx / sp * (cfg.maxSpeed * 0.75)) +
        wy / sp * (cfg.maxSpeed * 0.75) * (wy / sp * (cfg.maxSpeed * 0.75)) by ring]
    rw [mag_rescale hsp hpos (by nlinarith)]
  · intro h1 h2
    rw [h, if_neg (not_lt.2 h2), if_neg (not_lt.2 h1)]

/-- A lone boid moving slowly along the x axis: velocity `(0.1, 0)`. -/
def slowBoid : Boid := Boid.mk (Vec2.mk (some 0) (some 0)) (Vec2.mk (some 0.1) (some 0))

/-- The `matchVelocity` scan over `[slowBoid]`. -/
theorem matchScan_single_slow :
    matchScan defaultConfig [slowBoid] slowBoid = ScanAcc.mk (some 0.1) (some 0) 1 := by
  unfold matchScan
  rw [List.foldl_cons, List.foldl_nil,
    if_pos (show jlt (distance slowBoid slowBoid) (some defaultConfig.visualRange) by
      rw [distance_self slowBoid rfl]
      simp only [defaultConfig_visualRange, jlt_some]
      norm_num)]
  simp [slowBoid]

/-- Witness for C5: the lone slow boid is below half of `maxSpeed` with
nonzero speed `0.1`, so its post-rule speed is exactly
`maxSpeed * 0.75`. -/
theorem matchVelocity_alignment_witness :
    speedOf (matchVelocity defaultConfig [slowBoid] slowBoid).velocity =
      some (defaultConfig.maxSpeed * 0.75) := by
  have h := (matchVelocity_alignment defaultConfig [slowBoid] slowBoid
    0.1 0 0.1 0 0.1 0 0.1 1 matchScan_single_slow (by norm_num) rfl (by norm_num)
    (by norm_num) (by norm_num)
    (sqrt_eval (by norm_num) (by norm_num))).2.1 (by norm_num) (by norm_num)
  exact h.2

/-- C5 counterexample: for the lone *resting* boid (one neighbour —
itself — and post-blend speed `0 < 0.5 * maxSpeed`), the claim predicts
a rescale to magnitude `maxSpeed * 0.75 = 0.3375`, but the code produces
a NaN velocity whose measured speed is NaN, not `0.3375`. -/
theorem matchVelocity_floor_counterexample :
    speedOf (matchVelocity defaultConfig [defaultBoid] defaultBoid).velocity = none ∧
    speedOf (matchVelocity defaultConfig [defaultBoid] defaultBoid).velocity ≠
      some (defaultConfig.maxSpeed * 0.75) := by
  have h : speedOf (matchVelocity defaultConfig [defaultBoid] defaultBoid).velocity = none := by
    rw [resting_matchVelocity_nan]
    simp [speedOf]
  exact ⟨h, by rw [h]; simp⟩

/-- The `normalize` operation over plain reals, as the specification's
cohesion formula uses it (a spec-side definition, kept for comparison
with the code's `steer`). -/
noncomputable def rnormalize (x y : ℝ) : ℝ × ℝ :=
  if 0 < Real.sqrt (x * x + y * y) then
    (x / Real.sqrt (x * x + y * y), y / Real.sqrt (x * x + y * y))
  else (0, 0)

/-- Evaluate `rnormalize` from a positive magnitude witness. -/
theorem rnormalize_eval (x y m : ℝ) (hm : Real.sqrt (x * x + y * y) = m) (h0 : 0 < m) :
    rnormalize x y = (x / m, y / m) := by
  unfold rnormalize
  rw [hm, if_pos h0]

/-- Modelled from the spec: the velocity contribution C1 describes for
the cohesion rule — `normalize(normalize(target - position) - position)`,
clamped to the acceleration magnitude, clamped again so it never exceeds
`maxSpeed`, and scaled by `centeringFactor`.  Written from the claim's
words, to compare with the code's `steer`. -/
noncomputable def specSteeringDelta (cfg : Config) (px py tx ty : ℝ) : ℝ × ℝ :=
  let d := rnormalize (tx - px) (ty - py)
  let s := rnormalize (d.1 - px) (d.2 - py)
  let a1 := s.1 * cfg.acceleration
  let a2 := s.2 * cfg.acceleration
  let m := Real.sqrt (a1 * a1 + a2 * a2)
  let c := if cfg.maxSpeed < m then (a1 / m * cfg.maxSpeed, a2 / m * cfg.maxSpeed)
           else (a1, a2)
  (c.1 * cfg.centeringFactor, c.2 * cfg.centeringFactor)

/-- A boid at the origin, at rest. -/
def sepBoidA : Boid := Boid.mk (Vec2.mk (some 0) (some 0)) (Vec2.mk (some 0) (some 0))

/-- A boid 10 units to the right of `sepBoidA`, at rest. -/
def farBoidB : Boid := Boid.mk (Vec2.mk (some 10) (some 0)) (Vec2.mk (some 0) (some 0))

/-- C1 (code bug): the cohesion steering always collapses to `{0, 0}`.
With `sepBoidA` at the origin and `farBoidB` at `(10, 0)` the centroid is
`(5, 0)` and the claim's formula yields the nonzero contribution
`(0.00175, 0)`, yet `coherence` leaves the boid bit-for-bit unchanged:
inside `steer`, `target - current` subtracts two objects (NaN), so both
`normalize` calls return `{0, 0}` and the added steering is zero. -/
theorem coherence_steering_collapses :
    coherence defaultConfig [sepBoidA, farBoidB] sepBoidA = sepBoidA ∧
    steer defaultConfig (Vec2.mk (some 0) (some 0)) (Vec2.mk (some 5) (some 0)) =
      Vec2.mk (some 0) (some 0) ∧
    specSteeringDelta defaultConfig 0 0 5 0 = (0.00175, 0) ∧
    ((0.00175 : ℝ), (0 : ℝ)) ≠ ((0 : ℝ), (0 : ℝ)) := by
  refine ⟨coherence_id defaultConfig (by norm_num) _ _,
    steer_eq_zero defaultConfig (by norm_num) _ _, ?_, by
      intro h
      rw [Prod.mk.injEq] at h
      exact absurd h.1 (by norm_num)⟩
  simp only [specSteeringDelta]
  rw [show (5 : ℝ) - 0 = 5 by norm_num]
  rw [show (0 : ℝ) - 0 = 0 by norm_num]
  rw [rnormalize_eval 5 0 5 (sqrt_eval (by norm_num) (by norm_num)) (by norm_num)]
  rw [show ((5 : ℝ) / 5, (0 : ℝ) / 5) = ((1 : ℝ), (0 : ℝ)) by
    rw [Prod.mk.injEq]
    norm_num]
  rw [show (((1 : ℝ), (0 : ℝ))).1 = (1 : ℝ) from rfl]
  rw [show (((1 : ℝ), (0 : ℝ))).2 = (0 : ℝ) from rfl]
  rw [show (1 : ℝ) - 0 = 1 by norm_num]
  rw [show (0 : ℝ) - 0 = 0 by norm_num]
  rw [rnormalize_eval 1 0 1 (sqrt_eval (by norm_num) (by norm_num)) (by norm_num)]
  rw [show ((1 : ℝ) / 1, (0 : ℝ) / 1) = ((1 : ℝ), (0 : ℝ)) by
    rw [Prod.mk.injEq]
    norm_num]
  rw [show (((1 : ℝ), (0 : ℝ))).1 = (1 : ℝ) from rfl]
  rw [show (((1 : ℝ), (0 : ℝ))).2 = (0 : ℝ) from rfl]
  rw [show (1 : ℝ) * defaultConfig.acceleration = 0.035 by norm_num]
  rw [show (0 : ℝ) * defaultConfig.acceleration = 0 by norm_num]
  rw [sqrt_eval (by norm_num : (0:ℝ) ≤ 0.035) (by norm_num)]
  rw [if_neg (by norm_num)]
  rw [show (((0.035 : ℝ), (0 : ℝ))).1 = (0.035 : ℝ) from rfl]
  rw [show (((0.035 : ℝ), (0 : ℝ))).2 = (0 : ℝ) from rfl]
  rw [Prod.mk.injEq]
  norm_num

/-- The initial mouse cell: `{ x: null, y: null }` (line 171). -/
def unsetMouse : Mouse := Mouse.mk none none

/-- A boid 5 units from the origin, at rest. -/
def probeBoid : Boid := Boid.mk (Vec2.mk (some 5) (some 0)) (Vec2.mk (some 0) (some 0))

/-- A mouse position 495 units away from `probeBoid`. -/
def farMouse : Mouse := Mouse.mk (some 500) (some 0)

/-- C2 (code bug): with no repulsor ever set (`{x: null, y: null}`), the
rule is *not* a no-op: the `null` coordinates coerce to `0` inside the
subtractions, so a boid within `minDistanceMouse` of the *origin* is
pushed away from it — here `probeBoid`'s velocity changes from `(0, 0)`
to `(0.025, 0)`.  The second half of the claim does hold: a repulsor
farther than `minDistanceMouse` leaves the boid unchanged. -/
theorem avoidMouse_unset_not_noop :
    (avoidMouse defaultConfig unsetMouse probeBoid).velocity =
      Vec2.mk (some 0.025) (some 0) ∧
    (avoidMouse defaultConfig unsetMouse probeBoid).velocity ≠ probeBoid.velocity ∧
    avoidMouse defaultConfig farMouse probeBoid = probeBoid := by
  have hd5 : distance probeBoid
      (Boid.mk (Vec2.mk (some (nullToNumber unsetMouse.x)) (some (nullToNumber unsetMouse.y)))
        (Vec2.mk (some 0) (some 0))) = some 5 :=
    distance_eval _ _ rfl
      (show _ = Vec2.mk (some (0 : ℝ)) (some (0 : ℝ)) from rfl)
      (by norm_num) (by norm_num)
  have hnorm : normalize (some ((5 : ℝ) - 0)) (some ((0 : ℝ) - 0)) =
      Vec2.mk (some 1) (some 0) := by
    rw [show ((5 : ℝ) - 0) = 5 by norm_num, show ((0 : ℝ) - 0) = 0 by norm_num]
    rw [normalize_pos (sqrt_eval (by norm_num) (by norm_num)) (by norm_num : (0:ℝ) < 5)]
    simp only [Vec2.mk.injEq, Option.some.injEq]
    norm_num
  have h1 : (avoidMouse defaultConfig unsetMouse probeBoid).velocity =
      Vec2.mk (some 0.025) (some 0) := by
    unfold avoidMouse
    rw [if_pos (show jlt (distance probeBoid
        (Boid.mk (Vec2.mk (some (nullToNumber unsetMouse.x))
          (some (nullToNumber unsetMouse.y))) (Vec2.mk (some 0) (some 0))))
        (some defaultConfig.minDistanceMouse) by
      rw [hd5]
      simp only [defaultConfig_minDistanceMouse, jlt_some]
      norm_num)]
    show Vec2.mk
      (jadd probeBoid.velocity.x (jmul (normalize
        (jsub probeBoid.position.x (some (nullToNumber unsetMouse.x)))
        (jsub probeBoid.position.y (some (nullToNumber unsetMouse.y)))).x
        (some defaultConfig.avoidFactorMouse)))
      (jadd probeBoid.velocity.y (jmul (normalize
        (jsub probeBoid.position.x (some (nullToNumber unsetMouse.x)))
        (jsub probeBoid.position.y (some (nullToNumber unsetMouse.y)))).y
        (some defaultConfig.avoidFactorMouse))) = Vec2.mk (some 0.025) (some 0)
    rw [show probeBoid.position.x = some (5 : ℝ) from rfl,
      show probeBoid.position.y = some (0 : ℝ) from rfl,
      show probeBoid.velocity.x = some (0 : ℝ) from rfl,
      show probeBoid.velocity.y = some (0 : ℝ) from rfl,
      show some (nullToNumber unsetMouse.x) = some (0 : ℝ) from rfl,
      show some (nullToNumber unsetMouse.y) = some (0 : ℝ) from rfl,
      jsub_some, jsub_some, hnorm]
    simp only [defaultConfig_avoidFactorMouse, jmul_some, jadd_some, Vec2.mk.injEq,
      Option.some.injEq]
    norm_num
  refine ⟨h1, by rw [h1]; simp [probeBoid]; norm_num, ?_⟩
  have hd495 : distance probeBoid
      (Boid.mk (Vec2.mk (some (nullToNumber farMouse.x)) (some (nullToNumber farMouse.y)))
        (Vec2.mk (some 0) (some 0))) = some 495 :=
    distance_eval _ _ rfl
      (show _ = Vec2.mk (some (500 : ℝ)) (some (0 : ℝ)) from rfl)
      (by norm_num) (by norm_num)
  unfold avoidMouse
  rw [if_neg (show ¬ jlt (distance probeBoid
      (Boid.mk (Vec2.mk (some (nullToNumber farMouse.x))
        (some (nullToNumber farMouse.y))) (Vec2.mk (some 0) (some 0))))
      (some defaultConfig.minDistanceMouse) by
    rw [hd495]
    simp only [defaultConfig_minDistanceMouse, jlt_some, not_lt]
    norm_num)]

/-- One loop iteration of the step preserves the array length. -/
theorem updateOne_length (cfg : Config) (mouse : Mouse) (w h s : ℝ)
    (bs : List Boid) (i : ℕ) :
    (updateOne cfg mouse w h s bs i).length = bs.length := by
  simp [updateOne, applyBehaviors]

/-- Folding the step body over any index list preserves the length. -/
theorem foldl_updateOne_length (cfg : Config) (mouse : Mouse) (w h s : ℝ) :
    ∀ (xs : List ℕ) (bs : List Boid),
      (xs.foldl (updateOne cfg mouse w h s) bs).length = bs.length
  | [], _ => rfl
  | i :: xs, bs => by
      rw [List.foldl_cons, foldl_updateOne_length cfg mouse w h s xs,
        updateOne_length]

/-- C8: `updateBoids` processes the boids one at a time, in array order,
and for each one performs — in this order — position integration
(`position += velocity`), then the four behaviour rules in the fixed
order cohesion (`coherence`) → separation-from-boids (`avoidOthers`) →
separation-from-repulsor (`avoidMouse`) → alignment (`matchVelocity`),
then the boundary wrap; each phase reads the live, partially updated
array.  In-place mutation is modelled by the returned array, which keeps
the population size unchanged (the JavaScript function returns
nothing). -/
theorem updateBoids_order (cfg : Config) (mouse : Mouse) (w h s : ℝ) (bs : List Boid) :
    updateBoids cfg mouse w h s bs =
      (List.range bs.length).foldl
        (fun l i =>
          let l1 := l.set i (integrate (l.getD i defaultBoid))
          let l2 := l1.set i (coherence cfg l1 (l1.getD i defaultBoid))
          let l3 := l2.set i (avoidOthers cfg l2 i)
          let l4 := l3.set i (avoidMouse cfg mouse (l3.getD i defaultBoid))
          let l5 := l4.set i (matchVelocity cfg l4 (l4.getD i defaultBoid))
          l5.set i (wrapBoid w h s (l5.getD i defaultBoid))) bs ∧
    (updateBoids cfg mouse w h s bs).length = bs.length :=
  ⟨rfl, foldl_updateOne_length cfg mouse w h s (List.range bs.length) bs⟩

/-- A boid 5 units to the right of `sepBoidA`, at rest. -/
def sepBoidB : Boid := Boid.mk (Vec2.mk (some 5) (some 0)) (Vec2.mk (some 0) (some 0))

/-- `sepBoidA` after the separation rule of the scenario step. -/
def sepA2 : Boid := Boid.mk (Vec2.mk (some 0) (some 0)) (Vec2.mk (some (-0.025)) (some 0))

/-- `sepBoidA` at the end of the scenario step. -/
def sepA4 : Boid := Boid.mk (Vec2.mk (some 0) (some 0)) (Vec2.mk (some (-0.3375)) (some 0))

/-- `sepBoidB` after the separation rule of the scenario step. -/
def sepB2 : Boid := Boid.mk (Vec2.mk (some 5) (some 0)) (Vec2.mk (some 0.025) (some 0))

/-- `sepBoidB` after the repulsor rule of the scenario step. -/
def sepB3 : Boid := Boid.mk (Vec2.mk (some 5) (some 0)) (Vec2.mk (some 0.05) (some 0))

/-- `sepBoidB` at the end of the scenario step. -/
def sepB4 : Boid := Boid.mk (Vec2.mk (some 5) (some 0)) (Vec2.mk (some 0.3375) (some 0))

theorem sep_norm_neg5 : normalize (some (-5 : ℝ)) (some (0 : ℝ)) =
    Vec2.mk (some (-1)) (some 0) := by
  rw [normalize_pos (sqrt_eval (by norm_num) (by norm_num)) (by norm_num : (0:ℝ) < 5)]
  simp only [Vec2.mk.injEq, Option.some.injEq]
  norm_num

theorem sep_norm_pos5 : normalize (some (5 : ℝ)) (some (0 : ℝ)) =
    Vec2.mk (some 1) (some 0) := by
  rw [normalize_pos (sqrt_eval (by norm_num) (by norm_num)) (by norm_num : (0:ℝ) < 5)]
  simp only [Vec2.mk.injEq, Option.some.injEq]
  norm_num

theorem sep_avoidScanA :
    avoidScan defaultConfig [sepBoidA, sepBoidB] 0 sepBoidA = (some (-5), some 0) := by
  unfold avoidScan
  rw [show ([sepBoidA, sepBoidB] : List Boid).length = 2 from rfl,
    show List.range 2 = [0, 1] from rfl, List.foldl_cons, List.foldl_cons,
    List.foldl_nil,
    show ([sepBoidA, sepBoidB].getD 0 defaultBoid) = sepBoidA from rfl,
    show ([sepBoidA, sepBoidB].getD 1 defaultBoid) = sepBoidB from rfl]
  rw [if_neg (show ¬((0 : ℕ) ≠ 0 ∧ jlt (distance sepBoidA sepBoidA)
      (some defaultConfig.minDistanceBoid)) by simp)]
  rw [if_pos (show (1 : ℕ) ≠ 0 ∧ jlt (distance sepBoidA sepBoidB)
      (some defaultConfig.minDistanceBoid) from
    ⟨one_ne_zero, by
      rw [distance_eval sepBoidA sepBoidB rfl rfl (by norm_num : (0:ℝ) ≤ 5) (by norm_num)]
      simp only [defaultConfig_minDistanceBoid, jlt_some]
      norm_num⟩)]
  simp [sepBoidA, sepBoidB]

theorem sep_avoidA : avoidOthers defaultConfig [sepBoidA, sepBoidB] 0 = sepA2 := by
  simp only [avoidOthers,
    show ([sepBoidA, sepBoidB].getD 0 defaultBoid) = sepBoidA from rfl,
    sep_avoidScanA]
  rw [sep_norm_neg5]
  norm_num [sepBoidA, sepA2]

theorem sep_mouseA : avoidMouse defaultConfig unsetMouse sepA2 = sepA2 := by
  simp only [avoidMouse]
  rw [if_pos (show jlt (distance sepA2
      (Boid.mk (Vec2.mk (some (nullToNumber unsetMouse.x))
        (some (nullToNumber unsetMouse.y))) (Vec2.mk (some 0) (some 0))))
      (some defaultConfig.minDistanceMouse) from by
    rw [distance_eval sepA2 _ rfl
      (show _ = Vec2.mk (some (0 : ℝ)) (some (0 : ℝ)) from rfl) le_rfl (by norm_num)]
    simp only [defaultConfig_minDistanceMouse, jlt_some]
    norm_num)]
  rw [show sepA2.position.x = some (0 : ℝ) from rfl,
    show sepA2.position.y = some (0 : ℝ) from rfl,
    show some (nullToNumber unsetMouse.x) = some (0 : ℝ) from rfl,
    show some (nullToNumber unsetMouse.y) = some (0 : ℝ) from rfl,
    jsub_some, show (0 : ℝ) - 0 = 0 by norm_num, normalize_zero_zero]
  norm_num [sepA2]

theorem sep_matchScanA :
    matchScan defaultConfig [sepA2, sepBoidB] sepA2 = ScanAcc.mk (some (-0.025)) (some 0) 2 := by
  unfold matchScan
  rw [List.foldl_cons, List.foldl_cons, List.foldl_nil]
  rw [if_pos (show jlt (distance sepA2 sepA2) (some defaultConfig.visualRange) from by
    rw [distance_self sepA2 rfl]
    simp only [defaultConfig_visualRange, jlt_some]
    norm_num)]
  rw [if_pos (show jlt (distance sepA2 sepBoidB) (some defaultConfig.visualRange) from by
    rw [distance_eval sepA2 sepBoidB rfl rfl (by norm_num : (0:ℝ) ≤ 5) (by norm_num)]
    simp only [defaultConfig_visualRange, jlt_some]
    norm_num)]
  simp [sepA2, sepBoidB]

theorem sep_matchA : matchVelocity defaultConfig [sepA2, sepBoidB] sepA2 = sepA4 := by
  have h := matchVelocity_eval defaultConfig [sepA2, sepBoidB] sepA2
    (-0.025) 0 (-0.025) 0 (-0.024375) 0 0.024375 2 sep_matchScanA (by norm_num) rfl
    (by norm_num) (by norm_num) (by norm_num)
    (sqrt_eval (by norm_num) (by norm_num))
  rw [h, if_neg (by norm_num), if_pos (by norm_num), if_neg (by norm_num)]
  norm_num [sepA2, sepA4]

theorem sep_wrapA : wrapBoid 100 100 8 sepA4 = sepA4 := by
  unfold wrapBoid
  rw [show sepA4.position.x = some (0 : ℝ) from rfl,
    show sepA4.position.y = some (0 : ℝ) from rfl,
    wrapCoord_in (by norm_num) (by norm_num)]
  rfl

theorem sep_intA : integrate sepBoidA = sepBoidA := by
  simp [integrate, sepBoidA]

theorem sep_step0 :
    updateOne defaultConfig unsetMouse 100 100 8 [sepBoidA, sepBoidB] 0 =
      [sepA4, sepBoidB] := by
  simp only [updateOne, applyBehaviors]
  rw [show ([sepBoidA, sepBoidB].getD 0 defaultBoid) = sepBoidA from rfl]
  rw [sep_intA]
  rw [show ([sepBoidA, sepBoidB].set 0 sepBoidA) = [sepBoidA, sepBoidB] from rfl]
  rw [show ([sepBoidA, sepBoidB].getD 0 defaultBoid) = sepBoidA from rfl]
  rw [coherence_id defaultConfig (by norm_num)]
  rw [show ([sepBoidA, sepBoidB].set 0 sepBoidA) = [sepBoidA, sepBoidB] from rfl]
  rw [sep_avoidA]
  rw [show ([sepBoidA, sepBoidB].set 0 sepA2) = [sepA2, sepBoidB] from rfl]
  rw [show ([sepA2, sepBoidB].getD 0 defaultBoid) = sepA2 from rfl]
  rw [sep_mouseA]
  rw [show ([sepA2, sepBoidB].set 0 sepA2) = [sepA2, sepBoidB] from rfl]
  rw [show ([sepA2, sepBoidB].getD 0 defaultBoid) = sepA2 from rfl]
  rw [sep_matchA]
  rw [show ([sepA2, sepBoidB].set 0 sepA4) = [sepA4, sepBoidB] from rfl]
  rw [show ([sepA4, sepBoidB].getD 0 defaultBoid) = sepA4 from rfl]
  rw [sep_wrapA]
  rw [show ([sepA4, sepBoidB].set 0 sepA4) = [sepA4, sepBoidB] from rfl]

theorem sep_avoidScanB :
    avoidScan defaultConfig [sepA4, sepBoidB] 1 sepBoidB = (some 5, some 0) := by
  unfold avoidScan
  rw [show ([sepA4, sepBoidB] : List Boid).length = 2 from rfl,
    show List.range 2 = [0, 1] from rfl, List.foldl_cons, List.foldl_cons,
    List.foldl_nil,
    show ([sepA4, sepBoidB].getD 0 defaultBoid) = sepA4 from rfl,
    show ([sepA4, sepBoidB].getD 1 defaultBoid) = sepBoidB from rfl]
  rw [if_pos (show (0 : ℕ) ≠ 1 ∧ jlt (distance sepBoidB sepA4)
      (some defaultConfig.minDistanceBoid) from
    ⟨Nat.zero_ne_one, by
      rw [distance_eval sepBoidB sepA4 rfl rfl (by norm_num : (0:ℝ) ≤ 5) (by norm_num)]
      simp only [defaultConfig_minDistanceBoid, jlt_some]
      norm_num⟩)]
  rw [if_neg (show ¬((1 : ℕ) ≠ 1 ∧ jlt (distance sepBoidB sepBoidB)
      (some defaultConfig.minDistanceBoid)) by simp)]
  simp [sepA4, sepBoidB]

theorem sep_avoidB : avoidOthers defaultConfig [sepA4, sepBoidB] 1 = sepB2 := by
  simp only [avoidOthers,
    show ([sepA4, sepBoidB].getD 1 defaultBoid) = sepBoidB from rfl,
    sep_avoidScanB]
  rw [sep_norm_pos5]
  norm_num [sepBoidB, sepB2]

theorem sep_mouseB : avoidMouse defaultConfig unsetMouse sepB2 = sepB3 := by
  simp only [avoidMouse]
  rw [if_pos (show jlt (distance sepB2
      (Boid.mk (Vec2.mk (some (nullToNumber unsetMouse.x))
        (some (nullToNumber unsetMouse.y))) (Vec2.mk (some 0) (some 0))))
      (some defaultConfig.minDistanceMouse) from by
    rw [distance_eval sepB2 _ rfl
      (show _ = Vec2.mk (some (0 : ℝ)) (some (0 : ℝ)) from rfl)
      (by norm_num : (0:ℝ) ≤ 5) (by norm_num)]
    simp only [defaultConfig_minDistanceMouse, jlt_some]
    norm_num)]
  rw [show sepB2.position.x = some (5 : ℝ) from rfl,
    show sepB2.position.y = some (0 : ℝ) from rfl,
    show some (nullToNumber unsetMouse.x) = some (0 : ℝ) from rfl,
    show some (nullToNumber unsetMouse.y) = some (0 : ℝ) from rfl,
    jsub_some, jsub_some, show (5 : ℝ) - 0 = 5 by norm_num,
    show (0 : ℝ) - 0 = 0 by norm_num, sep_norm_pos5]
  norm_num [sepB2, sepB3]

theorem sep_matchScanB :
    matchScan defaultConfig [sepA4, sepB3] sepB3 = ScanAcc.mk (some (-0.2875)) (some 0) 2 := by
  unfold matchScan
  rw [List.foldl_cons, List.foldl_cons, List.foldl_nil]
  rw [if_pos (show jlt (distance sepB3 sepA4) (some defaultConfig.visualRange) from by
    rw [distance_eval sepB3 sepA4 rfl rfl (by norm_num : (0:ℝ) ≤ 5) (by norm_num)]
    simp only [defaultConfig_visualRange, jlt_some]
    norm_num)]
  rw [if_pos (show jlt (distance sepB3 sepB3) (some defaultConfig.visualRange) from by
    rw [distance_self sepB3 rfl]
    simp only [defaultConfig_visualRange, jlt_some]
    norm_num)]
  simp [sepA4, sepB3]
  norm_num

theorem sep_matchB : matchVelocity defaultConfig [sepA4, sepB3] sepB3 = sepB4 := by
  have h := matchVelocity_eval defaultConfig [sepA4, sepB3] sepB3
    (-0.2875) 0 0.05 0 0.0403125 0 0.0403125 2 sep_matchScanB (by norm_num) rfl
    (by norm_num) (by norm_num) (by norm_num)
    (sqrt_eval (by norm_num) (by norm_num))
  rw [h, if_neg (by norm_num), if_pos (by norm_num), if_neg (by norm_num)]
  norm_num [sepB3, sepB4]

theorem sep_wrapB : wrapBoid 100 100 8 sepB4 = sepB4 := by
  unfold wrapBoid
  rw [show sepB4.position.x = some (5 : ℝ) from rfl,
    show sepB4.position.y = some (0 : ℝ) from rfl,
    wrapCoord_in (by norm_num) (by norm_num),
    wrapCoord_in (by norm_num) (by norm_num)]
  rfl

theorem sep_intB : integrate sepBoidB = sepBoidB := by
  simp [integrate, sepBoidB]

theorem sep_step1 :
    updateOne defaultConfig unsetMouse 100 100 8 [sepA4, sepBoidB] 1 =
      [sepA4, sepB4] := by
  simp only [updateOne, applyBehaviors]
  rw [show ([sepA4, sepBoidB].getD 1 defaultBoid) = sepBoidB from rfl]
  rw [sep_intB]
  rw [show ([sepA4, sepBoidB].set 1 sepBoidB) = [sepA4, sepBoidB] from rfl]
  rw [show ([sepA4, sepBoidB].getD 1 defaultBoid) = sepBoidB from rfl]
  rw [coherence_id defaultConfig (by norm_num)]
  rw [show ([sepA4, sepBoidB].set 1 sepBoidB) = [sepA4, sepBoidB] from rfl]
  rw [sep_avoidB]
  rw [show ([sepA4, sepBoidB].set 1 sepB2) = [sepA4, sepB2] from rfl]
  rw [show ([sepA4, sepB2].getD 1 defaultBoid) = sepB2 from rfl]
  rw [sep_mouseB]
  rw [show ([sepA4, sepB2].set 1 sepB3) = [sepA4, sepB3] from rfl]
  rw [show ([sepA4, sepB3].getD 1 defaultBoid) = sepB3 from rfl]
  rw [sep_matchB]
  rw [show ([sepA4, sepB3].set 1 sepB4) = [sepA4, sepB4] from rfl]
  rw [show ([sepA4, sepB4].getD 1 defaultBoid) = sepB4 from rfl]
  rw [sep_wrapB]
  rw [show ([sepA4, sepB4].set 1 sepB4) = [sepA4, sepB4] from rfl]

/-- C6: the separation-from-boids rule adds
`normalize(Σ displacements) * avoidFactorBoid * reduceFactor` to the
velocity (first conjunct, the rule read directly off the translation);
and — the claim's scenario — two resting agents 5 units apart (default
`minDistanceBoid = 20`), after one full `updateBoids` step on a 100×100
canvas with an unset mouse, end with x-velocities `-0.3375` and
`+0.3375`: opposite signs along their displacement axis, pushing them
apart. -/
theorem separation_pushes_apart :
    (∀ (cfg : Config) (bs : List Boid) (i : ℕ),
      (avoidOthers cfg bs i).velocity.x =
        jadd (bs.getD i defaultBoid).velocity.x
          (jmul (jmul (normalize (avoidScan cfg bs i (bs.getD i defaultBoid)).1
              (avoidScan cfg bs i (bs.getD i defaultBoid)).2).x
            (some cfg.avoidFactorBoid)) (some cfg.reduceFactor)) ∧
      (avoidOthers cfg bs i).velocity.y =
        jadd (bs.getD i defaultBoid).velocity.y
          (jmul (jmul (normalize (avoidScan cfg bs i (bs.getD i defaultBoid)).1
              (avoidScan cfg bs i (bs.getD i defaultBoid)).2).y
            (some cfg.avoidFactorBoid)) (some cfg.reduceFactor))) ∧
    ((updateBoids defaultConfig unsetMouse 100 100 8
        [sepBoidA, sepBoidB]).getD 0 defaultBoid).velocity.x = some (-0.3375) ∧
    ((updateBoids defaultConfig unsetMouse 100 100 8
        [sepBoidA, sepBoidB]).getD 1 defaultBoid).velocity.x = some 0.3375 ∧
    ((-0.3375 : ℝ) < 0 ∧ (0 : ℝ) < 0.3375) := by
  have hu : updateBoids defaultConfig unsetMouse 100 100 8 [sepBoidA, sepBoidB] =
      [sepA4, sepB4] := by
    rw [show updateBoids defaultConfig unsetMouse 100 100 8 [sepBoidA, sepBoidB] =
      updateOne defaultConfig unsetMouse 100 100 8
        (updateOne defaultConfig unsetMouse 100 100 8 [sepBoidA, sepBoidB] 0) 1 from rfl]
    rw [sep_step0, sep_step1]
  refine ⟨fun cfg bs i => ⟨rfl, rfl⟩, ?_, ?_, by norm_num, by norm_num⟩
  · rw [hu]
    rfl
  · rw [hu]
    rfl

end BoidsModifier
